import Mathlib

/-!
# A verification model of `pyapply`

This file gives a shallow embedding of the core of `src/src/pyapply.py`
(whose table/synthesis functions are identical to those in `src/pyapply.py`)
and proves properties of the embedded functions.

Python strings are modelled as `String`; all splitting/stripping helpers are
written structurally over the underlying character list so that concrete
instances evaluate inside the kernel.  Python `dict`s (which preserve
insertion order and update values in place) are modelled as association
lists; exceptions are modelled with `Except` over an explicit error type.
External processes are modelled by an outcome oracle `Nat → ProcOutcome`
supplied to the dispatcher.
-/

/-- Split a character list on a one-character separator, Python
`str.split(sep)` style: `n` separators produce `n + 1` groups, and the
empty input produces `[[]]`. -/
def splitChars (sep : Char) : List Char → List (List Char)
  | [] => [[]]
  | c :: cs =>
    let r := splitChars sep cs
    if c = sep then [] :: r
    else
      match r with
      | [] => [[c]]
      | g :: gs => (c :: g) :: gs

/-- Python `s.split(sep)` for a one-character separator (the source only
splits on `"\t"` and `","`). -/
def pySplit (sep : Char) (s : String) : List String :=
  (splitChars sep s.data).map String.mk

/-- Python `s.rstrip()`: drop trailing whitespace characters. -/
def pyRstrip (s : String) : String :=
  String.mk ((s.data.reverse.dropWhile Char.isWhitespace).reverse)

/-- Python `sep.join(parts)`. -/
def pyJoin (sep : String) : List String → String
  | [] => ""
  | [x] => x
  | x :: xs => x ++ sep ++ pyJoin sep xs

/-- Value of a nonempty all-digit character list, `none` otherwise. -/
def digitsVal (ds : List Char) : Option Nat :=
  if ds ≠ [] ∧ ds.all Char.isDigit then
    some (ds.foldl (fun a c => a * 10 + (c.toNat - 48)) 0)
  else none

/-- Python `int(s)` on a decimal string literal: optional surrounding
whitespace, optional sign, then at least one digit; anything else raises
`ValueError`, modelled as `none`.  (CPython also accepts `_` digit
grouping; the source never passes such values.) -/
def pyParseInt (s : String) : Option Int :=
  let t := (s.data.dropWhile Char.isWhitespace).reverse.dropWhile Char.isWhitespace |>.reverse
  match t with
  | '-' :: ds => (digitsVal ds).map (fun n => -(n : Int))
  | '+' :: ds => (digitsVal ds).map (fun n => (n : Int))
  | ds => (digitsVal ds).map (fun n => (n : Int))

/-- Python `list.index` (first occurrence), `none` for `ValueError`. -/
def listIndexOf (xs : List String) (x : String) : Option Nat :=
  xs.findIdx? (fun y => y = x)

/-- Ordered-dict lookup on an association list. -/
def pyLookup {α β : Type} [DecidableEq α] (m : List (α × β)) (k : α) : Option β :=
  match m with
  | [] => none
  | (k', v) :: rest => if k' = k then some v else pyLookup rest k

/-- Ordered-dict assignment `m[k] = v`: update in place if the key exists,
otherwise append at the end (Python dicts preserve insertion order). -/
def dictInsert {α β : Type} [DecidableEq α] (m : List (α × β)) (k : α) (v : β) :
    List (α × β) :=
  match m with
  | [] => [(k, v)]
  | (k', v') :: rest =>
    if k' = k then (k, v) :: rest else (k', v') :: dictInsert rest k v

/-- `defaultdict(list)` append: `m[k].append(v)`, creating `[v]` at the end
of the insertion order when `k` is absent. -/
def assocAppend (m : List (String × List String)) (k : String) (v : String) :
    List (String × List String) :=
  match m with
  | [] => [(k, [v])]
  | (k', vs) :: rest =>
    if k' = k then (k, vs ++ [v]) :: rest else (k', vs) :: assocAppend rest k v

/-- `defaultdict(default)` read-modify-write at key `idx`: apply `f` to the
stored value, materialising `default` at the end of the insertion order
when `idx` is absent.  Models `commands[idx].append(...)` /
`commands[idx].extend(...)` on `defaultdict(lambda: constargs.copy())`. -/
def dgetUpdate (m : List (Nat × List String)) (default : List String) (idx : Nat)
    (f : List String → List String) : List (Nat × List String) :=
  match m with
  | [] => [(idx, f default)]
  | (k, v) :: rest =>
    if k = idx then (k, f v) :: rest else (k, v) :: dgetUpdate rest default idx f

/-- `enumerate` starting at `n`. -/
def enumF {α : Type} (n : Nat) : List α → List (Nat × α)
  | [] => []
  | a :: as => (n, a) :: enumF (n + 1) as

/-- Python exceptions raised by the embedded code. -/
inductive PyError where
  | runtimeError (msg : String)
  | keyError (k : String)
  | valueError (msg : String)
  | indexError
  | zeroDivision
  | oserror (msg : String)
  deriving DecidableEq, Repr

/-! ## Parameter table loader (`read_mapfile`) -/

/-- One data row: `for column, value in zip(header, values): vararg_map[column].append(value)`. -/
def addRow (m : List (String × List String)) (header : List String)
    (values : List String) : List (String × List String) :=
  (header.zip values).foldl (fun m kv => assocAppend m kv.1 kv.2) m

/-- `read_mapfile`, with the file presented as its list of lines (each line
as read, before `rstrip`).  The first line is split into the header on
tabs; every following line is split the same way and zipped against the
header into the column map. -/
def read_mapfile (lines : List String) : List (String × List String) :=
  match lines with
  | [] => []
  | headerLine :: rest =>
    let header := pySplit '\t' (pyRstrip headerLine)
    rest.foldl (fun m line => addRow m header (pySplit '\t' (pyRstrip line))) []

/-! ## Template splitter (`split_args`) -/

/-- `split_args`: a token is a variable arg iff it contains `\x7b`;
returns `(varargs, constargs)` preserving relative order. -/
def split_args : List String → List String × List String
  | [] => ([], [])
  | a :: rest =>
    let (v, c) := split_args rest
    if a.data.contains '\x7b' then (a :: v, c) else (v, a :: c)

/-! ## Flag binding (`map_headers_to_flag`) -/

/-- `map_headers_to_flag`: each vararg token `flag\x7bcolumn\x7d` is split on the
opening brace; exactly two parts are required (Python tuple unpacking
raises `ValueError` otherwise); all closing braces are removed from the
column name; the binding is stored with dict-assignment semantics. -/
def map_headers_to_flag (varargs : List String) :
    Except PyError (List (String × String)) :=
  varargs.foldlM
    (fun m arg =>
      match pySplit '\x7b' arg with
      | [flag, column] =>
        .ok (dictInsert m (String.mk (column.data.filter (fun c => c ≠ '\x7d'))) flag)
      | _ => .error (.valueError "too many values to unpack"))
    []

/-! ## Command synthesizer (`get_commands_list`) -/

/-- Append one column's contribution for one row:
`commands[idx].append(flag); commands[idx].extend(value.split(","))`. -/
def appendVal (flag : String) (v : String) (cmd : List String) : List String :=
  cmd ++ flag :: pySplit ',' v

/-- The inner `for idx, value in enumerate(values)` loop of
`get_commands_list` for one column. -/
def applyColAux (constargs : List String) (flag : String) :
    List (Nat × String) → List (Nat × List String) → List (Nat × List String)
  | [], commands => commands
  | iv :: rest, commands =>
    applyColAux constargs flag rest
      (dgetUpdate commands constargs iv.1 (appendVal flag iv.2))

/-- One column of `get_commands_list`. -/
def applyColumn (commands : List (Nat × List String)) (constargs : List String)
    (flag : String) (values : List String) : List (Nat × List String) :=
  applyColAux constargs flag (enumF 0 values) commands

/-- The outer `for colname, values in vararg_map.items()` loop; a column
name missing from `column2flag` raises `KeyError`. -/
def buildCommands (column2flag : List (String × String)) (constargs : List String) :
    List (String × List String) → List (Nat × List String) →
    Except PyError (List (Nat × List String))
  | [], commands => .ok commands
  | p :: rest, commands =>
    match pyLookup column2flag p.1 with
    | none => .error (.keyError p.1)
    | some flag =>
      buildCommands column2flag constargs rest (applyColumn commands constargs flag p.2)

/-- `get_commands_list`: build the per-row command dict, then take
`list(commands.values())` in insertion order. -/
def get_commands_list (vararg_map : List (String × List String))
    (constargs : List String) (column2flag : List (String × String)) :
    Except PyError (List (List String)) :=
  (buildCommands column2flag constargs vararg_map []).map (fun m => m.map Prod.snd)

/-- Modelled from the spec (§4.3, Testable Property 1): the synthesizer's
contract, written the spec's way — one vector per row index, constant args
first, then for each column its flag followed by the row value split on
commas.  `flags` names the flag bound to each column. -/
def synthesize_spec (R : Nat) (vararg_map : List (String × List String))
    (constargs : List String) (flags : String → String) : List (List String) :=
  (List.range R).map
    (fun i =>
      constargs ++
        (vararg_map.map (fun p => flags p.1 :: pySplit ',' (p.2.getD i ""))).flatten)

/-! ## CPU budget resolver (`parse_cmd_cpu` and the `main` case split) -/

/-- The three observable outcomes of `parse_cmd_cpu`: a parsed integer is
returned; the `except ValueError` handler runs (logs the "not found"
warning and returns 1); or `constargs[cmd_cpu_idx]` raises an uncaught
`IndexError`. -/
inductive CpuParse where
  | ok (n : Int)
  | warnDefault
  | indexError
  deriving DecidableEq, Repr

/-- `parse_cmd_cpu`.  `constargs.index(cpu_arg)` raising `ValueError` and
`int(...)` raising `ValueError` are both caught by the one handler;
indexing one past the end is an uncaught `IndexError`. -/
def parse_cmd_cpu (constargs : List String) (cpu_arg : String) : CpuParse :=
  match listIndexOf constargs cpu_arg with
  | none => .warnDefault
  | some i =>
    match constargs[i + 1]? with
    | none => .indexError
    | some tok =>
      match pyParseInt tok with
      | none => .warnDefault
      | some n => .ok n

/-- The `cmd_cpus` case split of `main` (lines 246–254). -/
def resolve_cmd_cpus (cpu_one : Bool) (cpu_arg : Option String) (max_cpus : Int)
    (constargs : List String) : Except PyError Int :=
  if cpu_one then .ok 1
  else
    match cpu_arg with
    | some a =>
      match parse_cmd_cpu constargs a with
      | .ok n => .ok n
      | .warnDefault => .ok 1
      | .indexError => .error .indexError
    | none => .ok max_cpus

/-! ## Dispatcher (`run_command` and the `main` dispatch block) -/

/-- Outcome of attempting to launch one external process. -/
inductive ProcOutcome where
  | success
  | exitFail (stderr : String)
  | launchFail (msg : String)
  deriving DecidableEq, Repr

/-- `true` unless launching the process itself raises (e.g.
`FileNotFoundError` for a missing executable). -/
def ProcOutcome.launches : ProcOutcome → Bool
  | .launchFail _ => false
  | _ => true

/-- The log lines `run_command` writes when the process launches:
the announcement line, then either the success line or the captured,
rstripped stderr.  (The source's "sucessfully" typo is preserved.) -/
def run_log (job_id : Nat) (command : List String) : ProcOutcome → List String
  | .success =>
    [s!"JOB {job_id}: " ++ pyJoin " " command, s!"JOB {job_id}: Ran sucessfully"]
  | .exitFail stderr =>
    [s!"JOB {job_id}: " ++ pyJoin " " command, s!"JOB {job_id}: " ++ pyRstrip stderr]
  | .launchFail _ => [s!"JOB {job_id}: " ++ pyJoin " " command]

/-- `run_command`: a `CalledProcessError` (nonzero exit) is caught and
logged; a launch failure is not `CalledProcessError`, so it propagates. -/
def run_command (job_id : Nat) (command : List String) (outcome : ProcOutcome) :
    Except PyError (List String) :=
  match outcome with
  | .success => .ok (run_log job_id command .success)
  | .exitFail stderr => .ok (run_log job_id command (.exitFail stderr))
  | .launchFail msg => .error (.oserror msg)

/-- The sequential `for job_id, command in enumerate(commands)` loop: an
uncaught exception from `run_command` aborts the loop; otherwise the
per-job logs are collected in input order. -/
def dispatchJobs (outcomes : Nat → ProcOutcome) :
    List (Nat × List String) → Except PyError (List (List String))
  | [] => .ok []
  | (i, cmd) :: rest => do
    let log ← run_command i cmd (outcomes i)
    let logs ← dispatchJobs outcomes rest
    return log :: logs

/-- The per-job logs of a run in which every process launches. -/
def runAll (commands : List (List String)) (outcomes : Nat → ProcOutcome) :
    List (List String) :=
  (enumF 0 commands).map (fun p => run_log p.1 p.2 (outcomes p.1))

/-- The dispatch block of `main` (lines 256–267), returning the
concurrency degree together with the per-job logs.  Sequential when
`max_cpus <= cmd_cpus`; otherwise `jobs = max_cpus // cmd_cpus` (floor
division — `ZeroDivisionError` when `cmd_cpus = 0`) worker processes are
created (`multiprocessing.Pool` rejects `jobs < 1`) and `starmap`
dispatches the jobs in input order. -/
def dispatch (commands : List (List String)) (max_cpus cmd_cpus : Int)
    (outcomes : Nat → ProcOutcome) : Except PyError (Int × List (List String)) :=
  if max_cpus ≤ cmd_cpus then
    (dispatchJobs outcomes (enumF 0 commands)).map (fun logs => (1, logs))
  else if cmd_cpus = 0 then .error .zeroDivision
  else
    let jobs := Int.fdiv max_cpus cmd_cpus
    if jobs < 1 then .error (.valueError "Number of processes must be at least 1")
    else (dispatchJobs outcomes (enumF 0 commands)).map (fun logs => (jobs, logs))

/-! ## The `main` pipeline -/

/-- `main` (lines 216–267), with argument parsing and logging setup
stripped: read the mapfile, split the trailing args, prepend the
executable to the constant args, check the column/vararg count, build the
flag binding and the commands, resolve the CPU budget, dispatch. -/
def main_run (lines : List String) (cmd : String) (cmd_args : List String)
    (max_cpus : Int) (cpu_arg : Option String) (cpu_one : Bool)
    (outcomes : Nat → ProcOutcome) : Except PyError (Int × List (List String)) :=
  let vararg_map := read_mapfile lines
  let va := split_args cmd_args
  let constargs := cmd :: va.2
  if vararg_map.length ≠ va.1.length then
    .error (.runtimeError
      "Number of variable args passed does not equal the number of columns in the mapfile.")
  else do
    let column2flag ← map_headers_to_flag va.1
    let commands ← get_commands_list vararg_map constargs column2flag
    let cmd_cpus ← resolve_cmd_cpus cpu_one cpu_arg max_cpus constargs
    dispatch commands max_cpus cmd_cpus outcomes

/-! ## Concrete process-outcome oracles used in concrete instances -/

/-- Every process launches and exits 0. -/
def ocSuccess : Nat → ProcOutcome := fun _ => .success

/-- Job 0 exits nonzero; every other job succeeds. -/
def ocExitFail0 : Nat → ProcOutcome
  | 0 => .exitFail "boom"
  | _ => .success

/-- Job 0 fails to launch (`FileNotFoundError`); every other job succeeds. -/
def ocLaunchFail0 : Nat → ProcOutcome
  | 0 => .launchFail "No such file or directory"
  | _ => .success

/-! ## Basic lemmas about the embedding's containers -/

theorem enumF_map_snd {α : Type} : ∀ (l : List α) (n : Nat),
    (enumF n l).map Prod.snd = l := by
  intro l
  induction l with
  | nil => intro n; rfl
  | cons a as ih => intro n; simp [enumF, ih]

theorem enumF_mem_le {α : Type} : ∀ (l : List α) (n : Nat) (p : Nat × α),
    p ∈ enumF n l → n ≤ p.1 := by
  intro l
  induction l with
  | nil => intro n p hp; simp [enumF] at hp
  | cons a as ih =>
    intro n p hp
    simp only [enumF, List.mem_cons] at hp
    rcases hp with h | h
    · subst h; exact Nat.le_refl n
    · exact Nat.le_of_succ_le (ih (n + 1) p h)

theorem dgetUpdate_absent (d : List String) (j : Nat) (f : List String → List String) :
    ∀ (s : List (Nat × List String)), (∀ p ∈ s, p.1 ≠ j) →
      dgetUpdate s d j f = s ++ [(j, f d)] := by
  intro s
  induction s with
  | nil => intro _; rfl
  | cons p rest ih =>
    intro h
    have hp : p.1 ≠ j := h p (List.mem_cons_self p rest)
    have := ih (fun q hq => h q (List.mem_cons_of_mem p hq))
    simp only [dgetUpdate, hp, if_false, this, List.cons_append]

theorem applyColAux_skip (d : List String) (flag : String) :
    ∀ (items : List (Nat × String)) (k : Nat) (x : List String)
      (s : List (Nat × List String)), (∀ p ∈ items, k < p.1) →
      applyColAux d flag items ((k, x) :: s) = (k, x) :: applyColAux d flag items s := by
  intro items
  induction items with
  | nil => intro k x s _; rfl
  | cons iv rest ih =>
    intro k x s h
    have hk : k < iv.1 := h iv (List.mem_cons_self iv rest)
    have hne : k ≠ iv.1 := Nat.ne_of_lt hk
    simp only [applyColAux, dgetUpdate, hne, if_false]
    exact ih k x _ (fun q hq => h q (List.mem_cons_of_mem iv hq))

theorem applyColAux_fresh (d : List String) (flag : String) :
    ∀ (values : List String) (m : Nat) (s : List (Nat × List String)),
      (∀ p ∈ s, p.1 < m) →
      applyColAux d flag (enumF m values) s =
        s ++ enumF m (values.map (fun v => appendVal flag v d)) := by
  intro values
  induction values with
  | nil => intro m s _; simp [enumF, applyColAux]
  | cons v vs ih =>
    intro m s hs
    have habs : ∀ p ∈ s, p.1 ≠ m := fun p hp => Nat.ne_of_lt (hs p hp)
    simp only [enumF, applyColAux]
    rw [dgetUpdate_absent d m (appendVal flag v) s habs]
    have hs' : ∀ p ∈ s ++ [(m, appendVal flag v d)], p.1 < m + 1 := by
      intro p hp
      rcases List.mem_append.mp hp with h | h
      · exact Nat.lt_succ_of_lt (hs p h)
      · simp at h; subst h; exact Nat.lt_succ_self m
    rw [ih (m + 1) _ hs']
    simp [enumF, List.append_assoc]

theorem applyColAux_update (d : List String) (flag : String) :
    ∀ (values : List String) (cmds : List (List String)) (m : Nat),
      cmds.length = values.length →
      applyColAux d flag (enumF m values) (enumF m cmds) =
        enumF m (List.zipWith (fun c v => appendVal flag v c) cmds values) := by
  intro values
  induction values with
  | nil =>
    intro cmds m hlen
    have : cmds = [] := List.length_eq_zero.mp hlen
    subst this; rfl
  | cons v vs ih =>
    intro cmds m hlen
    match cmds with
    | [] => simp at hlen
    | c :: cs =>
      have hlen' : cs.length = vs.length := by simpa using hlen
      simp only [enumF, applyColAux, List.zipWith]
      have hhead : dgetUpdate ((m, c) :: enumF (m + 1) cs) d m (appendVal flag v) =
          (m, appendVal flag v c) :: enumF (m + 1) cs := by
        simp [dgetUpdate]
      rw [hhead]
      have hkeys : ∀ p ∈ enumF (m + 1) vs, m < p.1 := by
        intro p hp
        exact Nat.lt_of_succ_le (enumF_mem_le vs (m + 1) p hp)
      rw [applyColAux_skip d flag (enumF (m + 1) vs) m (appendVal flag v c)
        (enumF (m + 1) cs) hkeys]
      rw [ih cs (m + 1) hlen']

theorem buildCommands_chain (c2f : List (String × String)) (ca : List String)
    (flags : String → String) :
    ∀ (cols : List (String × List String)) (cmds : List (List String)),
      (∀ q ∈ cols, (q.2 : List String).length = cmds.length) →
      (∀ q ∈ cols, pyLookup c2f q.1 = some (flags q.1)) →
      ∃ L, buildCommands c2f ca cols (enumF 0 cmds) = .ok (enumF 0 L) ∧
        L.length = cmds.length ∧
        ∀ (i : Nat) (hi : i < cmds.length) (hL : i < L.length),
          L.get ⟨i, hL⟩ = cmds.get ⟨i, hi⟩ ++
            (cols.map (fun q => flags q.1 :: pySplit ',' (q.2.getD i ""))).flatten := by
  intro cols
  induction cols with
  | nil =>
    intro cmds _ _
    exact ⟨cmds, rfl, rfl, fun i hi hL => by simp⟩
  | cons q cols ih =>
    intro cmds hlen hflag
    have hq : pyLookup c2f q.1 = some (flags q.1) := hflag q (List.mem_cons_self q cols)
    have hqlen : q.2.length = cmds.length := hlen q (List.mem_cons_self q cols)
    simp only [buildCommands, hq]
    rw [show applyColumn (enumF 0 cmds) ca (flags q.1) q.2 =
        enumF 0 (List.zipWith (fun c v => appendVal (flags q.1) v c) cmds q.2) from
      applyColAux_update ca (flags q.1) q.2 cmds 0 hqlen.symm]
    set cmds' := List.zipWith (fun c v => appendVal (flags q.1) v c) cmds q.2 with hcmds'
    have hlen2 : cmds'.length = cmds.length := by
      simp [hcmds', List.length_zipWith, hqlen]
    obtain ⟨L, hbuild, hLlen, hget⟩ := ih cmds'
      (fun r hr => by rw [hlen2]; exact hlen r (List.mem_cons_of_mem q hr))
      (fun r hr => hflag r (List.mem_cons_of_mem q hr))
    refine ⟨L, hbuild, by rw [hLlen, hlen2], ?_⟩
    intro i hi hL
    have hi' : i < cmds'.length := by rw [hlen2]; exact hi
    have hiq : i < q.2.length := by rw [hqlen]; exact hi
    rw [hget i hi' hL]
    have : cmds'.get ⟨i, hi'⟩ = appendVal (flags q.1) (q.2.getD i "")
        (cmds.get ⟨i, hi⟩) := by
      simp only [hcmds', List.get_eq_getElem, List.getElem_zipWith]
      rw [List.getD_eq_getElem q.2 "" hiq]
    rw [this]
    simp [appendVal, List.flatten, List.append_assoc]

theorem length_enumF {α : Type} : ∀ (l : List α) (n : Nat),
    (enumF n l).length = l.length := by
  intro l
  induction l with
  | nil => intro n; rfl
  | cons a as ih => intro n; simp [enumF, ih]

/-- C1: for every well-formed parameter table with `R` rows and a flag
binding covering its columns, `get_commands_list` returns exactly `R`
argument vectors, each equal to the constant args (executable prepended)
followed, for each column in the table's column order, by that column's
bound flag and the row's cell value split on commas — i.e. the output
refines `synthesize_spec`. -/
theorem claim_C1_synthesizer
    (vm : List (String × List String)) (ca : List String)
    (c2f : List (String × String)) (flags : String → String) (R : Nat)
    (hne : vm ≠ [])
    (hlen : ∀ p ∈ vm, (p.2 : List String).length = R)
    (hflag : ∀ p ∈ vm, pyLookup c2f p.1 = some (flags p.1)) :
    get_commands_list vm ca c2f = Except.ok (synthesize_spec R vm ca flags) := by
  cases vm with
  | nil => exact absurd rfl hne
  | cons p ps =>
    have hp2 : p.2.length = R := hlen p (List.mem_cons_self p ps)
    have hflagp : pyLookup c2f p.1 = some (flags p.1) :=
      hflag p (List.mem_cons_self p ps)
    have hfirst : applyColumn [] ca (flags p.1) p.2 =
        enumF 0 (p.2.map (fun v => appendVal (flags p.1) v ca)) := by
      have := applyColAux_fresh ca (flags p.1) p.2 0 [] (by intro q hq; simp at hq)
      simpa [applyColumn] using this
    set cmds1 := p.2.map (fun v => appendVal (flags p.1) v ca) with hcmds1
    have hlen1 : cmds1.length = R := by simp [hcmds1, hp2]
    obtain ⟨L, hbuild, hLlen, hget⟩ := buildCommands_chain c2f ca flags ps cmds1
      (fun q hq => by rw [hlen1]; exact hlen q (List.mem_cons_of_mem p hq))
      (fun q hq => hflag q (List.mem_cons_of_mem p hq))
    have hmain : buildCommands c2f ca (p :: ps) [] = .ok (enumF 0 L) := by
      simp only [buildCommands, hflagp]
      rw [hfirst, hbuild]
    simp only [get_commands_list, hmain, Except.map, enumF_map_snd]
    congr 1
    have hsynlen : (synthesize_spec R (p :: ps) ca flags).length = R := by
      simp [synthesize_spec]
    apply List.ext_get (by rw [hLlen, hlen1, hsynlen])
    intro i h1 h2
    have hiR : i < R := by rw [← hLlen, ← hlen1] at *; omega
    have hicmds : i < cmds1.length := by rw [hlen1]; exact hiR
    have hip2 : i < p.2.length := by rw [hp2]; exact hiR
    rw [hget i hicmds h1]
    have hc1 : cmds1.get ⟨i, hicmds⟩ =
        appendVal (flags p.1) (p.2.getD i "") ca := by
      simp only [hcmds1, List.get_eq_getElem, List.getElem_map]
      rw [List.getD_eq_getElem p.2 "" hip2]
    rw [hc1]
    simp [synthesize_spec, appendVal, List.append_assoc]

/-- Witness for C1 at a concrete two-row, two-column table with a
comma-valued cell. -/
theorem claim_C1_witness :
    get_commands_list [("A", ["a,b", "c"]), ("B", ["x", "y"])] ["tool", "--v"]
      [("A", "-a"), ("B", "-b")] =
    Except.ok (synthesize_spec 2 [("A", ["a,b", "c"]), ("B", ["x", "y"])]
      ["tool", "--v"] (fun k => if k = "A" then "-a" else "-b")) :=
  claim_C1_synthesizer _ _ _ _ 2 (by simp) (by decide) (by decide)

/-- C2: whenever the number of templated argument tokens differs from the
number of table columns, `main` raises its fatal `RuntimeError` before any
command is generated and before any process is dispatched. -/
theorem claim_C2_config_mismatch
    (lines : List String) (cmd : String) (cmd_args : List String)
    (max_cpus : Int) (cpu_arg : Option String) (cpu_one : Bool)
    (outcomes : Nat → ProcOutcome)
    (h : (read_mapfile lines).length ≠ (split_args cmd_args).1.length) :
    main_run lines cmd cmd_args max_cpus cpu_arg cpu_one outcomes =
      Except.error (.runtimeError
        "Number of variable args passed does not equal the number of columns in the mapfile.") := by
  simp [main_run, h]

/-- Witness for C2: a two-column mapfile with a single templated arg. -/
theorem claim_C2_witness :
    main_run ["A\tB", "x\ty"] "tool" ["-a{A}"] (-1) none false ocSuccess =
      Except.error (.runtimeError
        "Number of variable args passed does not equal the number of columns in the mapfile.") :=
  claim_C2_config_mismatch ["A\tB", "x\ty"] "tool" ["-a{A}"] (-1) none false
    ocSuccess (by decide)

/-- C3: the CPU budget resolver's case analysis: `cpu_one` forces cost 1;
a provided `cpu_arg` found in the constant args with an integer following
token yields that integer; a provided `cpu_arg` absent from the constant
args takes the warning path of `parse_cmd_cpu` and yields 1; with neither
flag the cost equals `max_cpus`. -/
theorem claim_C3_cpu_resolver
    (cpu_one : Bool) (cpu_arg : Option String) (max_cpus : Int)
    (constargs : List String) :
    (cpu_one = true →
      resolve_cmd_cpus cpu_one cpu_arg max_cpus constargs = .ok 1) ∧
    (∀ a i tok n, cpu_one = false → cpu_arg = some a →
      listIndexOf constargs a = some i → constargs[i + 1]? = some tok →
      pyParseInt tok = some n →
      resolve_cmd_cpus cpu_one cpu_arg max_cpus constargs = .ok n) ∧
    (∀ a, cpu_one = false → cpu_arg = some a → listIndexOf constargs a = none →
      parse_cmd_cpu constargs a = .warnDefault ∧
      resolve_cmd_cpus cpu_one cpu_arg max_cpus constargs = .ok 1) ∧
    (cpu_one = false → cpu_arg = none →
      resolve_cmd_cpus cpu_one cpu_arg max_cpus constargs = .ok max_cpus) := by
  refine ⟨?_, ?_, ?_, ?_⟩
  · intro h1; simp [resolve_cmd_cpus, h1]
  · intro a i tok n h1 h2 hidx htok hparse
    subst h1 h2
    simp [resolve_cmd_cpus, parse_cmd_cpu, hidx, htok, hparse]
  · intro a h1 h2 hidx
    subst h1 h2
    constructor
    · simp [parse_cmd_cpu, hidx]
    · simp [resolve_cmd_cpus, parse_cmd_cpu, hidx]
  · intro h1 h2; subst h1 h2; simp [resolve_cmd_cpus]

/-- Witness for C3: all four resolver cases at concrete configurations. -/
theorem claim_C3_witness :
    resolve_cmd_cpus true (some "-t") 8 ["tool"] = .ok 1 ∧
    resolve_cmd_cpus false (some "-t") 8 ["tool", "-t", "4"] = .ok 4 ∧
    (parse_cmd_cpu ["tool"] "-t" = .warnDefault ∧
      resolve_cmd_cpus false (some "-t") 8 ["tool"] = .ok 1) ∧
    resolve_cmd_cpus false none 8 ["tool"] = .ok 8 :=
  ⟨(claim_C3_cpu_resolver true (some "-t") 8 ["tool"]).1 rfl,
   (claim_C3_cpu_resolver false (some "-t") 8 ["tool", "-t", "4"]).2.1
     "-t" 1 "4" 4 rfl rfl (by decide) (by decide) (by decide),
   (claim_C3_cpu_resolver false (some "-t") 8 ["tool"]).2.2.1 "-t" rfl rfl (by decide),
   (claim_C3_cpu_resolver false none 8 ["tool"]).2.2.2 rfl rfl⟩

theorem run_command_launches (i : Nat) (cmd : List String) (o : ProcOutcome)
    (h : o.launches = true) : run_command i cmd o = .ok (run_log i cmd o) := by
  cases o <;> simp_all [run_command, ProcOutcome.launches]

theorem dispatchJobs_ok (outcomes : Nat → ProcOutcome)
    (h : ∀ i, (outcomes i).launches = true) :
    ∀ items, dispatchJobs outcomes items =
      .ok (items.map (fun p => run_log p.1 p.2 (outcomes p.1))) := by
  intro items
  induction items with
  | nil => rfl
  | cons p rest ih =>
    obtain ⟨i, cmd⟩ := p
    simp only [dispatchJobs, run_command_launches i cmd (outcomes i) (h i), ih,
      List.map]
    rfl

theorem runAll_length (commands : List (List String)) (outcomes : Nat → ProcOutcome) :
    (runAll commands outcomes).length = commands.length := by
  simp [runAll, length_enumF]

/-- C4: with a positive per-job CPU cost and every process able to launch,
the dispatcher is sequential with degree 1 and jobs in input order when
`max_cpus ≤ cmd_cpus`, and otherwise uses degree
`max_cpus // cmd_cpus` (floor division), which is at least 1; in both
modes every job is dispatched, in input order. -/
theorem claim_C4_dispatcher
    (commands : List (List String)) (max_cpus cmd_cpus : Int)
    (outcomes : Nat → ProcOutcome)
    (hpos : 1 ≤ cmd_cpus)
    (hoc : ∀ i, (outcomes i).launches = true) :
    (max_cpus ≤ cmd_cpus →
      dispatch commands max_cpus cmd_cpus outcomes =
        .ok (1, runAll commands outcomes)) ∧
    (cmd_cpus < max_cpus →
      dispatch commands max_cpus cmd_cpus outcomes =
        .ok (Int.fdiv max_cpus cmd_cpus, runAll commands outcomes) ∧
      1 ≤ Int.fdiv max_cpus cmd_cpus) ∧
    (runAll commands outcomes).length = commands.length := by
  refine ⟨?_, ?_, runAll_length commands outcomes⟩
  · intro hle
    simp only [dispatch, if_pos hle]
    rw [dispatchJobs_ok outcomes hoc (enumF 0 commands)]
    rfl
  · intro hlt
    have h0 : (0 : Int) < cmd_cpus := by omega
    have hjobs : 1 ≤ Int.fdiv max_cpus cmd_cpus := by
      rw [Int.fdiv_eq_ediv max_cpus (le_of_lt h0)]
      have h2 : cmd_cpus / cmd_cpus ≤ max_cpus / cmd_cpus :=
        Int.ediv_le_ediv h0 (le_of_lt hlt)
      have h3 : cmd_cpus / cmd_cpus = 1 := Int.ediv_self (ne_of_gt h0)
      omega
    refine ⟨?_, hjobs⟩
    simp only [dispatch, if_neg (not_le.mpr hlt), if_neg (by omega : ¬cmd_cpus = 0),
      if_neg (not_lt.mpr hjobs)]
    rw [dispatchJobs_ok outcomes hoc (enumF 0 commands)]
    rfl

/-- Witness for C4: both dispatch modes at concrete budgets over two jobs. -/
theorem claim_C4_witness :
    dispatch [["a"], ["b"]] (-1) 1 ocSuccess = .ok (1, runAll [["a"], ["b"]] ocSuccess) ∧
    (dispatch [["a"], ["b"]] 16 4 ocSuccess =
        .ok (Int.fdiv 16 4, runAll [["a"], ["b"]] ocSuccess) ∧
      1 ≤ Int.fdiv 16 4) ∧
    (runAll [["a"], ["b"]] ocSuccess).length = 2 :=
  ⟨(claim_C4_dispatcher [["a"], ["b"]] (-1) 1 ocSuccess (by decide) (fun _ => rfl)).1
      (by decide),
   (claim_C4_dispatcher [["a"], ["b"]] 16 4 ocSuccess (by decide) (fun _ => rfl)).2.1
      (by decide),
   (claim_C4_dispatcher [["a"], ["b"]] (-1) 1 ocSuccess (by decide) (fun _ => rfl)).2.2⟩

/-- Counterexample to C5 as stated: a job that fails to launch (the
`FileNotFoundError` case of "fails to launch") is not caught by
`run_command`'s `except subprocess.CalledProcessError`, so the exception
propagates out of the dispatcher and the second job is never dispatched. -/
theorem claim_C5_counterexample :
    dispatch [["bad"], ["ok"]] (-1) 1 ocLaunchFail0 =
      Except.error (.oserror "No such file or directory") := rfl

/-- C5 as amended: a nonzero exit is non-fatal — `run_command` catches it,
logs the captured stderr and returns normally — and as long as no job
fails to launch, the sequential dispatch loop yields a log for every job
in input order. -/
theorem claim_C5_exit_nonfatal
    (i : Nat) (cmd : List String) (stderr : String)
    (commands : List (List String)) (outcomes : Nat → ProcOutcome)
    (hoc : ∀ k, (outcomes k).launches = true) :
    run_command i cmd (.exitFail stderr) = .ok (run_log i cmd (.exitFail stderr)) ∧
    dispatchJobs outcomes (enumF 0 commands) = .ok (runAll commands outcomes) ∧
    (runAll commands outcomes).length = commands.length :=
  ⟨rfl,
   by rw [dispatchJobs_ok outcomes hoc (enumF 0 commands)]; rfl,
   runAll_length commands outcomes⟩

/-- Witness for the amended C5: job 0 exits nonzero, job 1 still runs. -/
theorem claim_C5_witness :
    run_command 0 ["a"] (.exitFail "boom") = .ok (run_log 0 ["a"] (.exitFail "boom")) ∧
    dispatchJobs ocExitFail0 (enumF 0 [["a"], ["b"]]) =
      .ok (runAll [["a"], ["b"]] ocExitFail0) ∧
    (runAll [["a"], ["b"]] ocExitFail0).length = 2 :=
  claim_C5_exit_nonfatal 0 ["a"] "boom" [["a"], ["b"]] ocExitFail0
    (fun k => by cases k <;> rfl)

/-- C6: the code bug exhibited — with `-t` present in the constant args
followed by the non-integer token `"abc"`, `int()` raises `ValueError`,
which the `except ValueError` handler written for the "flag not found"
case also catches: `parse_cmd_cpu` logs the misleading warning and
returns 1, and the resolver reports cost 1 instead of the fatal
`ParseError` the spec requires. -/
theorem claim_C6_parse_error_swallowed :
    parse_cmd_cpu ["tool", "-t", "abc"] "-t" = .warnDefault ∧
    resolve_cmd_cpus false (some "-t") 8 ["tool", "-t", "abc"] = .ok 1 :=
  ⟨rfl, rfl⟩

theorem zip_eq_zip_take {α β : Type} :
    ∀ (h : List α) (v : List β), List.zip h v = List.zip (h.take v.length) v := by
  intro h
  induction h with
  | nil => intro v; simp
  | cons a as ih =>
    intro v
    cases v with
    | nil => simp
    | cons b bs => simp [List.zip_cons_cons, List.take, ih bs]

/-- Counterexample to C7 as stated: a mapfile whose single data row has
one field under a two-column header is loaded without any error — column
`B` silently receives no value — and the end-to-end run still generates
and dispatches a command from the truncated table. -/
theorem claim_C7_counterexample :
    read_mapfile ["A\tB", "x"] = [("A", ["x"])] ∧
    main_run ["A\tB", "x"] "tool" ["-a{A}"] (-1) none false ocSuccess =
      Except.ok (1, [["JOB 0: tool -a x", "JOB 0: Ran sucessfully"]]) :=
  ⟨rfl, rfl⟩

/-- C7 as amended: a data row with fewer fields than the header does not
fail — `zip` truncation means the row contributes values only to the
leading `values.length` columns, exactly as if the header were cut to the
row's length. -/
theorem claim_C7_short_row_truncates
    (m : List (String × List String)) (header values : List String)
    (h : values.length < header.length) :
    addRow m header values = addRow m (header.take values.length) values := by
  unfold addRow
  rw [zip_eq_zip_take header values]

/-- Witness for the amended C7: a one-field row under a two-column header. -/
theorem claim_C7_witness :
    (["x"] : List String).length < (["A", "B"] : List String).length ∧
    addRow [] ["A", "B"] ["x"] =
      addRow [] (["A", "B"].take (["x"] : List String).length) ["x"] :=
  ⟨by decide, claim_C7_short_row_truncates [] ["A", "B"] ["x"] (by decide)⟩

/-- C8: command synthesis is deterministic and referentially transparent —
`get_commands_list` is a pure function of `(table, binding, constants)`,
so two invocations on equal inputs return equal outputs, token for token
and in the same order. -/
theorem claim_C8_deterministic
    (vm vm' : List (String × List String)) (ca ca' : List String)
    (c2f c2f' : List (String × String))
    (h1 : vm = vm') (h2 : ca = ca') (h3 : c2f = c2f') :
    get_commands_list vm ca c2f = get_commands_list vm' ca' c2f' := by
  subst h1; subst h2; subst h3; rfl

/-- Witness for C8 at a concrete input. -/
theorem claim_C8_witness :
    get_commands_list [("A", ["x"])] ["tool"] [("A", "-a")] =
      get_commands_list [("A", ["x"])] ["tool"] [("A", "-a")] :=
  claim_C8_deterministic [("A", ["x"])] [("A", ["x"])] ["tool"] ["tool"]
    [("A", "-a")] [("A", "-a")] rfl rfl rfl

theorem dgetUpdate_frame (s : List (Nat × List String)) (d : List String)
    (i j : Nat) (f : List String → List String) (hne : j ≠ i) :
    pyLookup (dgetUpdate s d i f) j = pyLookup s j := by
  have hij : i ≠ j := fun h => hne h.symm
  induction s with
  | nil => simp [dgetUpdate, pyLookup, hij]
  | cons q rest ih =>
    obtain ⟨k, v⟩ := q
    by_cases hk : k = i
    · subst hk
      simp [dgetUpdate, pyLookup, hij]
    · simp [dgetUpdate, pyLookup, hk, ih]

theorem dgetUpdate_pres (d : List String) (i : Nat) (f : List String → List String)
    (P : List String → Prop) (hd : P (f d)) (hf : ∀ x, P x → P (f x)) :
    ∀ (s : List (Nat × List String)), (∀ p ∈ s, P p.2) →
      ∀ p ∈ dgetUpdate s d i f, P p.2 := by
  intro s
  induction s with
  | nil =>
    intro _ p hp
    simp only [dgetUpdate, List.mem_singleton] at hp
    subst hp
    exact hd
  | cons q rest ih =>
    intro hs p hp
    obtain ⟨k, v⟩ := q
    by_cases hk : k = i
    · rw [show dgetUpdate ((k, v) :: rest) d i f = (k, f v) :: rest by
        simp [dgetUpdate, hk]] at hp
      rcases List.mem_cons.mp hp with h | h
      · subst h
        exact hf v (hs (k, v) (List.mem_cons_self _ _))
      · exact hs p (List.mem_cons_of_mem _ h)
    · rw [show dgetUpdate ((k, v) :: rest) d i f = (k, v) :: dgetUpdate rest d i f by
        simp [dgetUpdate, hk]] at hp
      rcases List.mem_cons.mp hp with h | h
      · subst h
        exact hs (k, v) (List.mem_cons_self _ _)
      · exact ih (fun q hq => hs q (List.mem_cons_of_mem _ hq)) p h

theorem applyColAux_pres (ca : List String) (flag : String) :
    ∀ (items : List (Nat × String)) (s : List (Nat × List String)),
      (∀ p ∈ s, ∃ t, p.2 = ca ++ t) →
      ∀ p ∈ applyColAux ca flag items s, ∃ t, p.2 = ca ++ t := by
  intro items
  induction items with
  | nil => intro s hs; exact hs
  | cons iv rest ih =>
    intro s hs
    apply ih
    apply dgetUpdate_pres ca iv.1 (appendVal flag iv.2) (fun x => ∃ t, x = ca ++ t)
    · exact ⟨flag :: pySplit ',' iv.2, rfl⟩
    · rintro x ⟨t, rfl⟩
      exact ⟨t ++ flag :: pySplit ',' iv.2, by simp [appendVal]⟩
    · exact hs

theorem buildCommands_pres (c2f : List (String × String)) (ca : List String) :
    ∀ (cols : List (String × List String)) (s m : List (Nat × List String)),
      (∀ p ∈ s, ∃ t, p.2 = ca ++ t) →
      buildCommands c2f ca cols s = .ok m →
      ∀ p ∈ m, ∃ t, p.2 = ca ++ t := by
  intro cols
  induction cols with
  | nil =>
    intro s m hs hok
    simp only [buildCommands, Except.ok.injEq] at hok
    subst hok
    exact hs
  | cons q cols ih =>
    intro s m hs hok
    simp only [buildCommands] at hok
    cases hlook : pyLookup c2f q.1 with
    | none => rw [hlook] at hok; cases hok
    | some flag =>
      rw [hlook] at hok
      exact ih _ m (applyColAux_pres ca flag (enumF 0 q.2) s hs) hok

/-- C9: the synthesizer never mutates the shared constant args: each
synthesized command is an independent extension of `constargs` (the
constant args are a shared read-only head, every command being
`constargs ++ suffix`), and a defaultdict update of one row's command
under key `i` never changes the command stored under any other key `j`. -/
theorem claim_C9_no_mutation
    (vm : List (String × List String)) (ca : List String)
    (c2f : List (String × String)) (l : List (List String))
    (hok : get_commands_list vm ca c2f = Except.ok l) :
    (∀ cmd ∈ l, ∃ t, cmd = ca ++ t) ∧
    (∀ (s : List (Nat × List String)) (i j : Nat) (f : List String → List String),
      j ≠ i → pyLookup (dgetUpdate s ca i f) j = pyLookup s j) := by
  constructor
  · unfold get_commands_list at hok
    cases hbuild : buildCommands c2f ca vm [] with
    | error e => rw [hbuild] at hok; simp [Except.map] at hok
    | ok m =>
      rw [hbuild] at hok
      simp only [Except.map, Except.ok.injEq] at hok
      intro cmd hcmd
      rw [← hok] at hcmd
      obtain ⟨p, hp, hpe⟩ := List.mem_map.mp hcmd
      rw [← hpe]
      exact buildCommands_pres c2f ca vm [] m (by simp) hbuild p hp
  · intro s i j f hne
    exact dgetUpdate_frame s ca i j f hne

/-- Witness for C9 at a concrete synthesis run. -/
theorem claim_C9_witness :
    (∀ cmd ∈ [["tool", "-a", "x"]], ∃ t, cmd = ["tool"] ++ t) ∧
    (∀ (s : List (Nat × List String)) (i j : Nat) (f : List String → List String),
      j ≠ i → pyLookup (dgetUpdate s ["tool"] i f) j = pyLookup s j) :=
  claim_C9_no_mutation [("A", ["x"])] ["tool"] [("A", "-a")] [["tool", "-a", "x"]] rfl

/-- C10: when the CPU flag is the last element of the constant args there
is no following token: `constargs[cmd_cpu_idx]` raises `IndexError`, which
the `except ValueError` handler does not catch — the resolver fails with
an uncaught index error instead of returning a cost or raising the
documented configuration errors. -/
theorem claim_C10_uncaught_index_error :
    parse_cmd_cpu ["tool", "-t"] "-t" = .indexError ∧
    resolve_cmd_cpus false (some "-t") 8 ["tool", "-t"] =
      Except.error .indexError :=
  ⟨rfl, rfl⟩
